import Mathlib

/-!
Verification of the box-blur benchmark harness (`labs/module9/C/Async/main.cpp`)
and of the spec-described blur kernels it orchestrates.

The harness is embedded shallowly: image buffers are functions `Nat → Nat`
(sample index to 8-bit sample value), the three extern blur routines are
parameters (`BlurFns`), and one run of `main` is a pure function producing a
`MainResult` record: the trace of external effects (`events`), the lines
written to standard output (`stdout`), the verdict of the comparison loop,
the buffer handed to the store collaborator, and the exit code.
-/

namespace BlurBench

/-- The element-by-element comparison loop of `main`
(`for(int i = 0; i < w*h*ch; i++) { if(output1[i] != output2[i]) { success = false; break; } }`),
starting at index `i` with bound `n`.  Returns the value of `success` after the
loop together with the number of loop iterations executed (elements inspected). -/
def cmpLoop (o1 o2 : Nat → Nat) (n i : Nat) : Bool × Nat :=
  if _h : i < n then
    if o1 i = o2 i then
      let rest := cmpLoop o1 o2 n (i + 1)
      (rest.1, rest.2 + 1)
    else
      (false, 1)
  else
    (true, 0)
termination_by n - i

/-- The three extern blur routines, seen by the harness as opaque functions
from a source buffer and geometry `(w, h, ch)` to an output buffer. -/
structure BlurFns where
  blur5 : (Nat → Nat) → Nat → Nat → Nat → (Nat → Nat)
  blur5_serial : (Nat → Nat) → Nat → Nat → Nat → (Nat → Nat)
  blur5_parallel : (Nat → Nat) → Nat → Nat → Nat → (Nat → Nat)

/-- The three blur variants, named as in the spec: `opt` is `blur5`
(Optimized Parallel), `seq` is `blur5_serial` (Sequential Reference),
`naive` is `blur5_parallel` (Naive Parallel). -/
inductive Variant where
  | opt
  | seq
  | naive
deriving DecidableEq

/-- External effects of one run of `main`, in program order:  loading the
input image, allocating an output buffer, invoking a blur variant (with the
flag recording whether the call is bracketed by `omp_get_wtime` reads, i.e.
timed), the `memcpy` back into the input buffer, and the store call. -/
inductive Event where
  | load
  | alloc
  | call (v : Variant) (timed : Bool)
  | memcpyEv
  | store
deriving DecidableEq

/-- One line written by `main` to standard output.  Duration lines carry the
variant they time (the numeric duration is wall-clock time, outside the
embedding); the verdict line carries the boolean verdict. -/
inductive OutLine where
  | durationOpt
  | infoRunning
  | durationSerial
  | durationNaive
  | infoChecking
  | verdictLine (ok : Bool)
deriving DecidableEq

/-- Is this stdout line one of the three duration lines? -/
def OutLine.isDuration : OutLine → Bool
  | .durationOpt => true
  | .durationSerial => true
  | .durationNaive => true
  | _ => false

/-- Is this stdout line the verdict line? -/
def OutLine.isVerdict : OutLine → Bool
  | .verdictLine _ => true
  | _ => false

/-- The text of the verdict line printed by `main`. -/
def verdictText (ok : Bool) : String :=
  if ok then "Code results are correct." else "Code results are incorrect."

/-- Observable outcome of one run of `main`. -/
structure MainResult where
  events : List Event
  stdout : List OutLine
  usageToStderr : Bool
  verdict : Option Bool
  checkedElems : Nat
  stored : Option (Nat → Nat)
  exitCode : Int

/-- The body of `main` after the argument check: load, allocate three output
buffers, warm-up call of `blur5`, timed calls of `blur5`, `blur5_serial`,
`blur5_parallel`, the comparison loop over `output1`/`output2`, the verdict
line, the `memcpy` of `output1` over `data`, and the store call. -/
def runMain (bf : BlurFns) (data : Nat → Nat) (w h ch : Nat) : MainResult :=
  let n := w * h * ch
  let output1 := bf.blur5 data w h ch
  let output2 := bf.blur5_serial data w h ch
  let res := cmpLoop output1 output2 n 0
  let success := res.1
  let data2 : Nat → Nat := fun i => if i < n then output1 i else data i
  ⟨[Event.load, Event.alloc, Event.alloc, Event.alloc,
    Event.call Variant.opt false, Event.call Variant.opt true,
    Event.call Variant.seq true, Event.call Variant.naive true,
    Event.memcpyEv, Event.store],
   [OutLine.durationOpt, OutLine.infoRunning, OutLine.durationSerial,
    OutLine.durationNaive, OutLine.infoChecking, OutLine.verdictLine success],
   false, some success, res.2, some data2, 0⟩

/-- `main` itself: with fewer than two positional arguments (`argc < 3`) it
prints the usage message to the error stream and returns `-1` before loading,
allocating or computing anything; otherwise it runs `runMain`. -/
def cppMain (argc : Nat) (bf : BlurFns) (data : Nat → Nat) (w h ch : Nat) :
    MainResult :=
  if argc < 3 then
    ⟨[], [], true, none, 0, none, -1⟩
  else
    runMain bf data w h ch

/-! ### Spec-modelled blur kernels

`blur5`, `blur5_serial` and `blur5_parallel` are declared `extern "C"` in
`main.cpp`; their definitions are not part of this repository, so they are
modelled from the spec for the refinement claim. -/

/-- Modelled from the spec: the Stencil Kernel of the missing extern blur
routines.  The output sample at `(row, col, c)` is the unweighted (box)
average of the channel-`c` samples in the 5-wide-per-axis window centred at
`(row, col)`, with the window clamped to the valid image region (the divisor
shrinks near edges), accumulated exactly and truncated to the 8-bit output
domain by integer division by the count of in-bounds samples. -/
def stencil (src : Nat → Nat) (w h ch : Nat) (row col c : Nat) : Nat :=
  let r0 := row - 2
  let r1 := min (row + 2) (h - 1)
  let c0 := col - 2
  let c1 := min (col + 2) (w - 1)
  let idxs := (List.range (r1 + 1 - r0)).flatMap fun i =>
    (List.range (c1 + 1 - c0)).map fun j => ((r0 + i) * w + (c0 + j)) * ch + c
  (idxs.map src).sum / idxs.length

/-- Modelled from the spec: `blur5_serial`, the Sequential Reference variant:
the Stencil Kernel applied at every (row, col, channel) triple; the sample at
flat index `(row*w + col)*ch + c` is the stencil value at `(row, col, c)`. -/
def blur5_serialSpec (src : Nat → Nat) (w h ch : Nat) : Nat → Nat :=
  fun idx => stencil src w h ch (idx / (w * ch)) (idx % (w * ch) / ch) (idx % ch)

/-- Modelled from the spec: the start of worker `k`'s contiguous chunk of
output rows when `h` rows are split across `workers` workers — `rows ÷
worker-count` rows per worker, remainder distributed to the first few. -/
def chunkStart (h workers k : Nat) : Nat :=
  k * (h / workers) + min k (h % workers)

/-- Modelled from the spec: worker `k`'s contribution to the Optimized
Parallel output: the stencil value for samples whose row lies in its chunk,
nothing elsewhere (disjoint write regions). -/
def workerOut (workers k : Nat) (src : Nat → Nat) (w h ch : Nat) (idx : Nat) :
    Option Nat :=
  let row := idx / (w * ch)
  if chunkStart h workers k ≤ row ∧ row < chunkStart h workers (k + 1) then
    some (stencil src w h ch row (idx % (w * ch) / ch) (idx % ch))
  else
    none

/-- Modelled from the spec: `blur5`, the Optimized Parallel variant: output
rows are split into contiguous chunks, one chunk per worker; every output
sample is produced by the worker whose chunk contains the sample's row. -/
def blur5Spec (workers : Nat) (src : Nat → Nat) (w h ch : Nat) : Nat → Nat :=
  fun idx =>
    (((List.range workers).find? fun k =>
        decide (chunkStart h workers k ≤ idx / (w * ch) ∧
          idx / (w * ch) < chunkStart h workers (k + 1))).bind
      fun k => workerOut workers k src w h ch idx).getD 0

/-! ### Concrete instances used by counterexamples and witnesses -/

/-- An all-zero buffer. -/
def zeroBuf : Nat → Nat := fun _ => 0

/-- Blur routines returning constant buffers, with `blur5` and `blur5_serial`
agreeing everywhere. -/
def bfAgree : BlurFns :=
  ⟨fun _ _ _ _ _ => 7, fun _ _ _ _ _ => 7, fun _ _ _ _ _ => 9⟩

/-- Blur routines returning constant buffers, with `blur5` and `blur5_serial`
disagreeing at every sample. -/
def bfDisagree : BlurFns :=
  ⟨fun _ _ _ _ _ => 1, fun _ _ _ _ _ => 2, fun _ _ _ _ _ => 3⟩

/-- Like `bfAgree` but with a different `blur5_parallel`. -/
def bfAgreeAlt : BlurFns :=
  ⟨fun _ _ _ _ _ => 7, fun _ _ _ _ _ => 7, fun _ _ _ _ _ => 0⟩

/-! ### Properties of the comparison loop -/

theorem cmpLoop_fst_true_iff (o1 o2 : Nat → Nat) (n i : Nat) :
    (cmpLoop o1 o2 n i).1 = true ↔ ∀ j, i ≤ j → j < n → o1 j = o2 j := by
  rw [cmpLoop]
  by_cases h : i < n
  · simp only [h, if_true, dif_pos]
    by_cases heq : o1 i = o2 i
    · simp only [heq, if_pos]
      rw [cmpLoop_fst_true_iff o1 o2 n (i + 1)]
      constructor
      · intro hall j hij hjn
        rcases Nat.eq_or_lt_of_le hij with rfl | hlt
        · exact heq
        · exact hall j hlt hjn
      · intro hall j hij hjn
        exact hall j (Nat.le_of_succ_le hij) hjn
    · simp only [heq, if_neg, not_false_iff]
      constructor
      · intro hfalse
        exact absurd hfalse (by decide)
      · intro hall
        exact absurd (hall i (Nat.le_refl i) h) heq
  · simp only [h, dif_neg, not_false_iff]
    constructor
    · intro _ j hij hjn
      exact absurd (Nat.lt_of_le_of_lt hij hjn) h
    · intro _
      trivial
termination_by n - i

theorem cmpLoop_fst_false_iff (o1 o2 : Nat → Nat) (n i : Nat) :
    (cmpLoop o1 o2 n i).1 = false ↔ ∃ j, i ≤ j ∧ j < n ∧ o1 j ≠ o2 j := by
  rw [← Bool.not_eq_true, cmpLoop_fst_true_iff]
  push_neg
  constructor
  · intro ⟨j, hj1, hj2, hj3⟩
    exact ⟨j, hj1, hj2, hj3⟩
  · intro ⟨j, hj1, hj2, hj3⟩
    exact ⟨j, hj1, hj2, hj3⟩

/-- The loop stops at the first mismatch: if `j` is a mismatching index and
every index before it (from `i` on) matches, the loop inspects exactly the
elements `i..j`. -/
theorem cmpLoop_snd_first_mismatch (o1 o2 : Nat → Nat) (n i j : Nat)
    (hij : i ≤ j) (hjn : j < n) (hne : o1 j ≠ o2 j)
    (hfirst : ∀ k, i ≤ k → k < j → o1 k = o2 k) :
    (cmpLoop o1 o2 n i).2 = j + 1 - i := by
  rw [cmpLoop]
  have h : i < n := Nat.lt_of_le_of_lt hij hjn
  simp only [h, dif_pos]
  by_cases heq : o1 i = o2 i
  · have hij' : i < j := by
      rcases Nat.eq_or_lt_of_le hij with rfl | hlt
      · exact absurd heq hne
      · exact hlt
    simp only [heq, if_pos]
    have ih := cmpLoop_snd_first_mismatch o1 o2 n (i + 1) j hij' hjn hne
      (fun k hk1 hk2 => hfirst k (Nat.le_of_succ_le hk1) hk2)
    simp only [ih]
    omega
  · have hieqj : i = j := by
      by_contra hij''
      exact heq (hfirst i (Nat.le_refl i) (Nat.lt_of_le_of_ne hij hij''))
    simp only [heq, if_neg, not_false_iff]
    omega
termination_by n - i

/-! ### Chunk coverage for the parallel partition -/

theorem chunkStart_zero (h workers : Nat) : chunkStart h workers 0 = 0 := by
  simp [chunkStart]

theorem chunkStart_self (h workers : Nat) (hw : 1 ≤ workers) :
    chunkStart h workers workers = h := by
  have hr : h % workers < workers := Nat.mod_lt _ hw
  have hmin : min workers (h % workers) = h % workers :=
    Nat.min_eq_right (Nat.le_of_lt hr)
  unfold chunkStart
  rw [hmin]
  exact Nat.div_add_mod h workers

theorem exists_chunk (f : Nat → Nat) (row : Nat) :
    ∀ W, f 0 ≤ row → row < f W → ∃ k, k < W ∧ f k ≤ row ∧ row < f (k + 1) := by
  intro W
  induction W with
  | zero =>
    intro h0 hW
    exact absurd (Nat.lt_of_le_of_lt h0 hW) (Nat.lt_irrefl _)
  | succ W ih =>
    intro h0 hW
    by_cases hfW : f W ≤ row
    · exact ⟨W, Nat.lt_succ_self W, hfW, hW⟩
    · obtain ⟨k, hk, h1, h2⟩ := ih h0 (Nat.lt_of_not_le hfW)
      exact ⟨k, Nat.lt_succ_of_lt hk, h1, h2⟩

/-- **C3.** For every input buffer, every geometry and every worker count
`≥ 1`, the Optimized Parallel variant's output buffer equals the Sequential
Reference variant's output buffer at every in-range sample index. -/
theorem blur5Spec_eq_blur5_serialSpec (workers : Nat) (src : Nat → Nat)
    (w h ch : Nat) (hw : 1 ≤ workers) (idx : Nat) (hidx : idx < w * h * ch) :
    blur5Spec workers src w h ch idx = blur5_serialSpec src w h ch idx := by
  have hwch : 0 < w * ch := by
    rcases Nat.eq_zero_or_pos (w * ch) with h0 | h0
    · exfalso
      have hz : w * h * ch = 0 := by
        rcases Nat.mul_eq_zero.1 h0 with h' | h' <;> subst h' <;> ring
      omega
    · exact h0
  have hrow : idx / (w * ch) < h := by
    rw [Nat.div_lt_iff_lt_mul hwch]
    calc idx < w * h * ch := hidx
      _ = h * (w * ch) := by ring
  obtain ⟨k, hkW, hk1, hk2⟩ :=
    exists_chunk (chunkStart h workers) (idx / (w * ch)) workers
      (by rw [chunkStart_zero]; exact Nat.zero_le _)
      (by rw [chunkStart_self h workers hw]; exact hrow)
  have hs : (((List.range workers).find? fun j =>
      decide (chunkStart h workers j ≤ idx / (w * ch) ∧
        idx / (w * ch) < chunkStart h workers (j + 1)))).isSome := by
    rw [List.find?_isSome]
    exact ⟨k, List.mem_range.2 hkW, by simp [hk1, hk2]⟩
  obtain ⟨k', hk'⟩ := Option.isSome_iff_exists.1 hs
  have hp' := List.find?_some hk'
  simp only [decide_eq_true_eq] at hp'
  unfold blur5Spec
  rw [hk']
  unfold workerOut
  simp [hp'.1, hp'.2, blur5_serialSpec]

/-! ### Claims about the harness -/

/-- **C1 counterexample.** The buffer handed to the store collaborator is not
the Sequential Reference output: with `blur5` constantly 1 and `blur5_serial`
constantly 2 on a 1×1×1 image, the stored sample 0 is 1, which differs from
the Sequential Reference output sample 0. -/
theorem storedSample_ne_serialSample :
    ((runMain bfDisagree zeroBuf 1 1 1).stored).getD zeroBuf 0 ≠
      bfDisagree.blur5_serial zeroBuf 1 1 1 0 := by
  decide

/-- **C1 (amended).** After the comparison, the harness overwrites the first
`w*h*ch` samples of the input buffer with the **Optimized Parallel**
(`blur5`) output — not the Sequential Reference output — and hands that
buffer to the store collaborator; this happens in every run, regardless of
the verdict. -/
theorem stored_is_blur5_output (bf : BlurFns) (data : Nat → Nat)
    (w h ch : Nat) :
    (runMain bf data w h ch).stored =
      some (fun i =>
        if i < w * h * ch then bf.blur5 data w h ch i else data i) ∧
    Event.store ∈ (runMain bf data w h ch).events := by
  exact ⟨rfl, by simp [runMain]⟩

/-- **C2.** The verdict is "incorrect" iff some index `i < w*h*ch` has the
Optimized Parallel output differ from the Sequential Reference output;
success is reported iff no mismatch exists anywhere; and the loop stops at
the first mismatch: if `j` mismatches and every earlier index matches,
exactly `j+1` elements are inspected. -/
theorem verdict_iff_mismatch (bf : BlurFns) (data : Nat → Nat) (w h ch : Nat) :
    ((runMain bf data w h ch).verdict = some false ↔
      ∃ i, i < w * h * ch ∧
        bf.blur5 data w h ch i ≠ bf.blur5_serial data w h ch i) ∧
    ((runMain bf data w h ch).verdict = some true ↔
      ∀ i, i < w * h * ch →
        bf.blur5 data w h ch i = bf.blur5_serial data w h ch i) ∧
    (∀ j, j < w * h * ch →
      bf.blur5 data w h ch j ≠ bf.blur5_serial data w h ch j →
      (∀ i, i < j → bf.blur5 data w h ch i = bf.blur5_serial data w h ch i) →
      (runMain bf data w h ch).checkedElems = j + 1) := by
  have hv : (runMain bf data w h ch).verdict =
      some ((cmpLoop (bf.blur5 data w h ch) (bf.blur5_serial data w h ch)
        (w * h * ch) 0).1) := rfl
  have hc : (runMain bf data w h ch).checkedElems =
      (cmpLoop (bf.blur5 data w h ch) (bf.blur5_serial data w h ch)
        (w * h * ch) 0).2 := rfl
  refine ⟨?_, ?_, ?_⟩
  · rw [hv]
    simp only [Option.some.injEq]
    rw [cmpLoop_fst_false_iff]
    constructor
    · intro ⟨j, _, hj2, hj3⟩
      exact ⟨j, hj2, hj3⟩
    · intro ⟨j, hj2, hj3⟩
      exact ⟨j, Nat.zero_le j, hj2, hj3⟩
  · rw [hv]
    simp only [Option.some.injEq]
    rw [cmpLoop_fst_true_iff]
    constructor
    · intro hall i hi
      exact hall i (Nat.zero_le i) hi
    · intro hall i _ hi
      exact hall i hi
  · intro j hj hne hfirst
    rw [hc, cmpLoop_snd_first_mismatch _ _ _ 0 j (Nat.zero_le j) hj hne
      (fun k _ hk => hfirst k hk)]
    omega

/-- **C4 counterexample.** Not every variant gets a warm-up call: in a
concrete run the Sequential Reference variant (`blur5_serial`) is invoked
zero times untimed — the only warm-up call in the harness is the extra
`blur5` call. -/
theorem no_serial_warmup_call :
    (runMain bfAgree zeroBuf 1 1 1).events.count
      (Event.call Variant.seq false) = 0 := by
  decide

/-- **C4 (amended).** In every run, only the Optimized Parallel variant
receives a discarded warm-up call, which precedes its timed call; the
Sequential Reference and Naive Parallel variants receive no warm-up call and
are each invoked exactly once, timed. -/
theorem warmup_only_blur5 (bf : BlurFns) (data : Nat → Nat) (w h ch : Nat) :
    (runMain bf data w h ch).events.count (Event.call Variant.opt false) = 1 ∧
    (runMain bf data w h ch).events.count (Event.call Variant.opt true) = 1 ∧
    (runMain bf data w h ch).events.count (Event.call Variant.seq false) = 0 ∧
    (runMain bf data w h ch).events.count (Event.call Variant.seq true) = 1 ∧
    (runMain bf data w h ch).events.count
      (Event.call Variant.naive false) = 0 ∧
    (runMain bf data w h ch).events.count (Event.call Variant.naive true) = 1 ∧
    (runMain bf data w h ch).events.indexOf (Event.call Variant.opt false) <
      (runMain bf data w h ch).events.indexOf (Event.call Variant.opt true) := by
  refine ⟨rfl, rfl, rfl, rfl, rfl, rfl, ?_⟩
  have h4 : (runMain bf data w h ch).events.indexOf
      (Event.call Variant.opt false) = 4 := rfl
  have h5 : (runMain bf data w h ch).events.indexOf
      (Event.call Variant.opt true) = 5 := rfl
  rw [h4, h5]
  omega

/-- **C5.** The harness diffs only the Optimized Parallel output against the
Sequential Reference output: the verdict is exactly the comparison-loop
result on the `blur5` and `blur5_serial` outputs; the Naive Parallel variant
is invoked and timed, yet replacing `blur5_parallel` by any other routine
leaves the verdict unchanged. -/
theorem naive_output_not_compared (bf : BlurFns)
    (p : (Nat → Nat) → Nat → Nat → Nat → (Nat → Nat))
    (data : Nat → Nat) (w h ch : Nat) :
    (runMain bf data w h ch).verdict =
      some ((cmpLoop (bf.blur5 data w h ch) (bf.blur5_serial data w h ch)
        (w * h * ch) 0).1) ∧
    Event.call Variant.naive true ∈ (runMain bf data w h ch).events ∧
    (runMain (BlurFns.mk bf.blur5 bf.blur5_serial p) data w h ch).verdict =
      (runMain bf data w h ch).verdict :=
  ⟨rfl, by simp [runMain], rfl⟩

/-- **C6.** With fewer than two positional arguments (`argc < 3`), the
process writes the usage message to the error stream and exits with the
non-zero status `-1` before any work: no load, allocation, blur call, memcpy
or store event occurs, nothing is written to standard output, no verdict is
formed and nothing is stored. -/
theorem usage_error_before_work (argc : Nat) (bf : BlurFns)
    (data : Nat → Nat) (w h ch : Nat) (hargc : argc < 3) :
    (cppMain argc bf data w h ch).usageToStderr = true ∧
    (cppMain argc bf data w h ch).exitCode ≠ 0 ∧
    (cppMain argc bf data w h ch).events = [] ∧
    (cppMain argc bf data w h ch).stdout = [] ∧
    (cppMain argc bf data w h ch).verdict = none ∧
    (cppMain argc bf data w h ch).stored = none := by
  unfold cppMain
  rw [if_pos hargc]
  exact ⟨rfl, by decide, rfl, rfl, rfl, rfl⟩

/-- Witness for C6 at `argc = 2`. -/
theorem usage_error_before_work_witness :
    (cppMain 2 bfAgree zeroBuf 1 1 1).usageToStderr = true ∧
    (cppMain 2 bfAgree zeroBuf 1 1 1).exitCode ≠ 0 ∧
    (cppMain 2 bfAgree zeroBuf 1 1 1).events = [] ∧
    (cppMain 2 bfAgree zeroBuf 1 1 1).stdout = [] ∧
    (cppMain 2 bfAgree zeroBuf 1 1 1).verdict = none ∧
    (cppMain 2 bfAgree zeroBuf 1 1 1).stored = none :=
  usage_error_before_work 2 bfAgree zeroBuf 1 1 1 (by decide)

/-- **C7.** On every run past the argument check, the duration/verdict lines
on standard output are exactly: Optimized Parallel duration, Sequential
Reference duration, Naive Parallel duration, then one verdict line — so
there are exactly three duration lines in that fixed order, exactly one
verdict line, and the verdict line follows all duration lines. -/
theorem stdout_durations_then_verdict (bf : BlurFns) (data : Nat → Nat)
    (w h ch : Nat) :
    ((runMain bf data w h ch).stdout.filter fun l =>
        l.isDuration || l.isVerdict) =
      [OutLine.durationOpt, OutLine.durationSerial, OutLine.durationNaive,
        OutLine.verdictLine
          ((cmpLoop (bf.blur5 data w h ch) (bf.blur5_serial data w h ch)
            (w * h * ch) 0).1)] ∧
    ((runMain bf data w h ch).stdout.filter fun l => l.isVerdict).length = 1 :=
  ⟨rfl, rfl⟩

/-- **C8.** Whenever at least two positional arguments are supplied
(`argc ≥ 3`), the exit status is 0, whatever the verdict: a mismatch verdict
does not change the exit code. -/
theorem exit_zero_when_args_ok (argc : Nat) (bf : BlurFns)
    (data : Nat → Nat) (w h ch : Nat) (hargc : 3 ≤ argc) :
    (cppMain argc bf data w h ch).exitCode = 0 := by
  unfold cppMain
  rw [if_neg (by omega)]
  rfl

/-- Witness for C8, in both verdict branches: `bfAgree` yields the success
verdict, `bfDisagree` the mismatch verdict, and both runs exit 0. -/
theorem exit_zero_when_args_ok_witness :
    (cppMain 3 bfAgree zeroBuf 1 1 1).exitCode = 0 ∧
    (cppMain 3 bfDisagree zeroBuf 1 1 1).exitCode = 0 :=
  ⟨exit_zero_when_args_ok 3 bfAgree zeroBuf 1 1 1 (by decide),
   exit_zero_when_args_ok 3 bfDisagree zeroBuf 1 1 1 (by decide)⟩

/-- **C9.** The verdict and the stored bytes are independent of the Naive
Parallel routine's results: two runs whose blur functions agree on `blur5`
and `blur5_serial` (but may differ arbitrarily in `blur5_parallel`) produce
the same printed verdict and the same stored buffer. -/
theorem verdict_stored_independent_of_naive (bf1 bf2 : BlurFns)
    (data : Nat → Nat) (w h ch : Nat)
    (h5 : bf1.blur5 = bf2.blur5) (hs : bf1.blur5_serial = bf2.blur5_serial) :
    (runMain bf1 data w h ch).verdict = (runMain bf2 data w h ch).verdict ∧
    (runMain bf1 data w h ch).stored = (runMain bf2 data w h ch).stored := by
  unfold runMain
  rw [h5, hs]
  exact ⟨rfl, rfl⟩

/-- Witness for C9: `bfAgree` and `bfAgreeAlt` differ only in
`blur5_parallel`, and their runs have equal verdicts and stored buffers. -/
theorem verdict_stored_independent_of_naive_witness :
    (runMain bfAgree zeroBuf 1 1 1).verdict =
      (runMain bfAgreeAlt zeroBuf 1 1 1).verdict ∧
    (runMain bfAgree zeroBuf 1 1 1).stored =
      (runMain bfAgreeAlt zeroBuf 1 1 1).stored :=
  verdict_stored_independent_of_naive bfAgree bfAgreeAlt zeroBuf 1 1 1 rfl rfl

/-- **C10.** On a degenerate image with `w*h*ch = 0`, the comparison loop
inspects no element and the harness reports the success verdict, whose
printed text is "Code results are correct.". -/
theorem empty_buffer_vacuous_success (bf : BlurFns) (data : Nat → Nat)
    (w h ch : Nat) (hn : w * h * ch = 0) :
    (runMain bf data w h ch).checkedElems = 0 ∧
    (runMain bf data w h ch).verdict = some true ∧
    OutLine.verdictLine true ∈ (runMain bf data w h ch).stdout ∧
    verdictText true = "Code results are correct." := by
  have hcmp : cmpLoop (bf.blur5 data w h ch) (bf.blur5_serial data w h ch)
      (w * h * ch) 0 = (true, 0) := by
    rw [cmpLoop]
    simp [hn]
  refine ⟨?_, ?_, ?_, rfl⟩
  · show (cmpLoop (bf.blur5 data w h ch) (bf.blur5_serial data w h ch)
      (w * h * ch) 0).2 = 0
    rw [hcmp]
  · show some (cmpLoop (bf.blur5 data w h ch) (bf.blur5_serial data w h ch)
      (w * h * ch) 0).1 = some true
    rw [hcmp]
  · show OutLine.verdictLine true ∈ (runMain bf data w h ch).stdout
    simp [runMain, hcmp]

/-- Witness for C10 on a 0×0 3-channel image. -/
theorem empty_buffer_vacuous_success_witness :
    (runMain bfAgree zeroBuf 0 0 3).checkedElems = 0 ∧
    (runMain bfAgree zeroBuf 0 0 3).verdict = some true ∧
    OutLine.verdictLine true ∈ (runMain bfAgree zeroBuf 0 0 3).stdout ∧
    verdictText true = "Code results are correct." :=
  empty_buffer_vacuous_success bfAgree zeroBuf 0 0 3 (by decide)

/-- Witness for C3: with 2 workers on a 2×2 single-channel image the parallel
and sequential outputs agree at sample 0. -/
theorem blur5Spec_eq_blur5_serialSpec_witness :
    blur5Spec 2 zeroBuf 2 2 1 0 = blur5_serialSpec zeroBuf 2 2 1 0 :=
  blur5Spec_eq_blur5_serialSpec 2 zeroBuf 2 2 1 (by decide) 0 (by decide)

end BlurBench
